import Mathlib

/-!
Shallow embedding of the workflow-orchestration core of the `sub-agents-mcp`
repository, used to settle the frozen claims about its specification.

The embedding follows the TypeScript sources directly:
  * `src/types/WorkflowState.ts`      → the state data model (`WorkflowState`, records)
  * `src/workflow/WorkflowManager.ts` → pure state transformers (`updateWorkflowPure`,
    `recordCheckpointPure`, ...); disk persistence and the in-process cache collapse
    to plain state passing, with the `updated_at` timestamp supplied as a `now` argument
    (the TS code calls `new Date().toISOString()` there)
  * `src/workflow/WorkflowLoader.ts`  → YAML validation / normalization / interpolation;
    `js-yaml`'s parse is external, so the loader takes the parse outcome
    (`Except String Yaml`) as input
  * `src/workflow/WorkflowExecutor.ts` → the verification-step state machine and the
    creator-step context assembly; agent invocations are external, so the per-verifier
    success flags arrive as a `List Bool`, and `Date.parse` ordering arrives as a
    `timeOf` oracle
  * `src/utils/TokenBudget.ts`        → token estimation and budget thresholds
  * `src/tools/ContinueWorkflowTool.ts` → the `continue_workflow` operation

JavaScript `number` fields that the modelled flows only ever hold integral values in
(iterations, version, min/max iterations) are embedded as `Int`; `Nat` is used where
the value is a length.  JS truthiness (`!x`, `x || y`, `x ? a : b`) is modelled
explicitly at each use site (`0`, `""`, `null`/`undefined` are falsy).
-/

/-! ### Workflow state data model (src/types/WorkflowState.ts) -/

/-- `WorkflowStatus` from src/types/WorkflowState.ts. -/
inductive WorkflowStatus where
  | idle | working | reviewing | verifying | checkpoint | complete | rejected
  deriving DecidableEq, Repr

/-- `ArtifactType` from src/types/WorkflowState.ts. -/
inductive ArtifactType where
  | plan | review | verification | implementation | testResult
  deriving DecidableEq, Repr

/-- `CheckpointDecision` from src/types/WorkflowState.ts. -/
inductive CheckpointDecision where
  | continueDecision | iterate | approve | reject
  deriving DecidableEq, Repr

/-- `FeedbackRecord` from src/types/WorkflowState.ts. -/
structure FeedbackRecord where
  iteration : Int
  reviewer : String
  feedback_file : String
  addressed : Bool
  created_at : String
  deriving DecidableEq, Repr

/-- `ArtifactRecord` from src/types/WorkflowState.ts. -/
structure ArtifactRecord where
  iteration : Int
  type : ArtifactType
  file : String
  created_by : String
  created_at : String
  deriving DecidableEq, Repr

/-- `CheckpointRecord` from src/types/WorkflowState.ts. -/
structure CheckpointRecord where
  iteration : Int
  decision : CheckpointDecision
  feedback : Option String
  decided_at : String
  deriving DecidableEq, Repr

/-- `AgentRunRecord` from src/types/WorkflowState.ts. -/
structure AgentRunRecord where
  agent : String
  iteration : Int
  context_files : List String
  output_file : String
  started_at : String
  completed_at : Option String
  success : Option Bool
  error : Option String
  deriving DecidableEq, Repr

/-- `DEFAULT_REVIEWER_VERIFIER_MAP` from src/types/WorkflowState.ts. -/
def DEFAULT_REVIEWER_VERIFIER_MAP : List (String × String) :=
  [("plan-reviewer-architecture", "plan-verifier-architecture"),
   ("plan-reviewer-integration", "plan-verifier-integration"),
   ("plan-reviewer-security", "plan-verifier-security"),
   ("code-reviewer-logic", "code-verifier-logic"),
   ("code-reviewer-patterns", "code-verifier-patterns"),
   ("code-reviewer-operations", "code-verifier-operations"),
   ("test-reviewer-coverage", "test-verifier-coverage"),
   ("test-reviewer-quality", "test-verifier-quality"),
   ("test-reviewer-reliability", "test-verifier-reliability")]

/-- `WorkflowState` from src/types/WorkflowState.ts.  The `phase` field is typed
`WorkflowPhase` in TS but that type is a union of string literals and the runtime
value is a plain string (phase ids of loaded definitions are arbitrary strings),
so it is embedded as `String`.  The reviewer/verifier map is a JS object, embedded
as an association list (first match wins on lookup). -/
structure WorkflowState where
  workflow_id : String
  phase : String
  iteration : Int
  status : WorkflowStatus
  created_at : String
  updated_at : String
  feedback_history : List FeedbackRecord
  artifacts : List ArtifactRecord
  checkpoints_passed : List CheckpointRecord
  agent_runs : List AgentRunRecord
  reviewer_verifier_map : List (String × String)
  current_artifact : Option String
  checkpoint_message : Option String
  deriving DecidableEq, Repr

/-- `createWorkflowState` from src/types/WorkflowState.ts; `now` stands for
`new Date().toISOString()`. -/
def createWorkflowState (workflowId : String) (phase : String) (now : String) :
    WorkflowState where
  workflow_id := workflowId
  phase := phase
  iteration := 1
  status := .idle
  created_at := now
  updated_at := now
  feedback_history := []
  artifacts := []
  checkpoints_passed := []
  agent_runs := []
  reviewer_verifier_map := DEFAULT_REVIEWER_VERIFIER_MAP
  current_artifact := none
  checkpoint_message := none

/-! ### Workflow state store (src/workflow/WorkflowManager.ts)

Each manager operation loads the state (cache/disk), mutates it in place and calls
`saveWorkflow`, which stamps `updated_at` and persists.  Here they are pure
transformers on `WorkflowState`; `now` is the timestamp `saveWorkflow` (or the
record being appended) obtains from `new Date().toISOString()`. -/

/-- `WorkflowUpdateOptions` from src/workflow/WorkflowManager.ts: a partial update;
`none` stands for an absent (`undefined`) field. -/
structure WorkflowUpdateOptions where
  phase : Option String := none
  iteration : Option Int := none
  status : Option WorkflowStatus := none
  current_artifact : Option String := none
  checkpoint_message : Option String := none
  deriving Repr

/-- `WorkflowManager.saveWorkflow`: sets `updated_at` before writing. -/
def saveWorkflowPure (s : WorkflowState) (now : String) : WorkflowState :=
  { s with updated_at := now }

/-- `WorkflowManager.updateWorkflow` (lines 162-188): applies each option that is
present (`!== undefined`), then saves. -/
def updateWorkflowPure (s : WorkflowState) (o : WorkflowUpdateOptions) (now : String) :
    WorkflowState :=
  let s := match o.phase with
    | some p => { s with phase := p }
    | none => s
  let s := match o.iteration with
    | some i => { s with iteration := i }
    | none => s
  let s := match o.status with
    | some st => { s with status := st }
    | none => s
  let s := match o.current_artifact with
    | some a => { s with current_artifact := some a }
    | none => s
  let s := match o.checkpoint_message with
    | some m => { s with checkpoint_message := some m }
    | none => s
  saveWorkflowPure s now

/-- `WorkflowManager.addArtifact` (lines 193-212). -/
def addArtifactPure (s : WorkflowState) (type : ArtifactType) (file created_by now : String) :
    WorkflowState :=
  let artifact : ArtifactRecord :=
    { iteration := s.iteration, type := type, file := file,
      created_by := created_by, created_at := now }
  saveWorkflowPure { s with artifacts := s.artifacts ++ [artifact] } now

/-- `WorkflowManager.addFeedback` (lines 217-236). -/
def addFeedbackPure (s : WorkflowState) (reviewer feedback_file now : String) :
    WorkflowState :=
  let feedback : FeedbackRecord :=
    { iteration := s.iteration, reviewer := reviewer, feedback_file := feedback_file,
      addressed := false, created_at := now }
  saveWorkflowPure { s with feedback_history := s.feedback_history ++ [feedback] } now

/-- `WorkflowManager.recordCheckpoint` (lines 329-370): appends a `CheckpointRecord`
and switches on the decision.  Note that the `continue` branch of the TS `switch`
sets only `status`; it does not touch `checkpoint_message` (and neither does the
`reject` branch). -/
def recordCheckpointPure (s : WorkflowState) (decision : CheckpointDecision)
    (feedback : Option String) (now : String) : WorkflowState :=
  let checkpoint : CheckpointRecord :=
    { iteration := s.iteration, decision := decision, feedback := feedback,
      decided_at := now }
  let s := { s with checkpoints_passed := s.checkpoints_passed ++ [checkpoint] }
  let s := match decision with
    | .continueDecision => { s with status := .working }
    | .iterate =>
        { s with iteration := s.iteration + 1, status := .working,
                 checkpoint_message := none }
    | .approve => { s with status := .complete, checkpoint_message := none }
    | .reject => { s with status := .rejected }
  saveWorkflowPure s now

/-- `WorkflowManager.pauseAtCheckpoint` (lines 375-380). -/
def pauseAtCheckpointPure (s : WorkflowState) (message now : String) : WorkflowState :=
  updateWorkflowPure s { status := some .checkpoint, checkpoint_message := some message } now

/-- `WorkflowManager.getUnaddressedFeedback` (lines 396-403). -/
def getUnaddressedFeedback (s : WorkflowState) : List FeedbackRecord :=
  s.feedback_history.filter (fun f => f.iteration == s.iteration && !f.addressed)

/-! ### YAML values and the definition loader (src/workflow/WorkflowLoader.ts)

`js-yaml` is an external collaborator: the loader receives its outcome as an
`Except String Yaml` (an exception message or a parsed document).  An empty
document (where `yaml.load` returns `undefined`) is represented by `Yaml.null`,
which the code treats identically (both are falsy non-strings).  Numbers are
embedded as `Int`: every number the claims exercise is integral.  JS objects are
association lists; lookup takes the first match.  Prototype-chain property hits
(e.g. a key named `constructor`) are not modelled. -/

/-- A parsed YAML document as `js-yaml` hands it to the loader. -/
inductive Yaml where
  | null
  | bool (b : Bool)
  | num (n : Int)
  | str (s : String)
  | arr (xs : List Yaml)
  | obj (fields : List (String × Yaml))
  deriving Repr

namespace Yaml

/-- JS falsiness of a parsed value (`!x`): `null`/`undefined`, `false`, `0`, `""`. -/
def falsy : Yaml → Bool
  | .null => true
  | .bool b => !b
  | .num n => n == 0
  | .str s => s == ""
  | .arr _ => false
  | .obj _ => false

/-- JS `typeof x === 'object'` for a parsed value (`null` and arrays included). -/
def typeofObject : Yaml → Bool
  | .null => true
  | .arr _ => true
  | .obj _ => true
  | _ => false

/-- Property access `x[key]`; `none` is `undefined`.  Arrays have no string-named
data properties relevant here (`length` is never one of the accessed keys). -/
def getField : Yaml → String → Option Yaml
  | .obj fields, key => fields.lookup key
  | _, _ => none

/-- `!x[key] || typeof x[key] !== 'string'` negated: the field is a truthy string. -/
def truthyStringField (v : Yaml) (key : String) : Bool :=
  match v.getField key with
  | some (.str s) => s != ""
  | _ => false

end Yaml

/-- A workflow variable value (`string | number | boolean`). -/
inductive VarValue where
  | str (s : String)
  | num (n : Int)
  | bool (b : Bool)
  deriving DecidableEq, Repr

/-- JS `String(v)` on a variable value (integral numbers only). -/
def VarValue.jsString : VarValue → String
  | .str s => s
  | .num n => toString n
  | .bool b => if b then "true" else "false"

/-- `DEFAULT_WORKFLOW_VARIABLES` from src/types/WorkflowDefinition.ts:
`{ output_dir: '.cursor/agents/workflow', iteration: 1 }`. -/
def DEFAULT_WORKFLOW_VARIABLES : List (String × VarValue) :=
  [("output_dir", .str ".cursor/agents/workflow"), ("iteration", .num 1)]

/-- Normalized phase definition, iterative variant
(`IterativePhaseDefinition` from src/types/WorkflowDefinition.ts). -/
structure IterativePhaseDef where
  id : String
  creator : String
  reviewers : List String
  verifiers : List String
  outputs : Option (List (String × String))
  context : Option (List String)
  min_iterations : Int
  max_iterations : Option Int
  checkpoint_message : Option String
  deriving DecidableEq, Repr

/-- Normalized phase definition, test-execution variant
(`TestExecutionPhaseDefinition` from src/types/WorkflowDefinition.ts). -/
structure TestExecPhaseDef where
  id : String
  tester : String
  fixer : String
  outputs : Option (List (String × String))
  context : Option (List String)
  min_iterations : Int
  max_iterations : Option Int
  deriving DecidableEq, Repr

/-- `PhaseDefinition` (tagged union over the phase `type`). -/
inductive PhaseDef where
  | iterative (p : IterativePhaseDef)
  | testExecution (p : TestExecPhaseDef)
  deriving DecidableEq, Repr

/-- The `id` of either phase variant. -/
def PhaseDef.id : PhaseDef → String
  | .iterative p => p.id
  | .testExecution p => p.id

/-- Normalized `WorkflowDefinition` from src/types/WorkflowDefinition.ts
(after `WorkflowLoader.normalizeDefinition`). -/
structure WorkflowDefinitionN where
  name : String
  version : Int
  description : Option String
  «variables» : List (String × VarValue)
  phases : List PhaseDef
  output_dir : String
  input_file : Option String
  deriving DecidableEq, Repr

/-- `WorkflowLoadResult` from src/types/WorkflowDefinition.ts. -/
structure WorkflowLoadResult where
  success : Bool
  definition : Option WorkflowDefinitionN := none
  error : Option String := none
  source_path : Option String := none
  deriving DecidableEq, Repr

/-- Reads a YAML value as a string, as the unchecked TS casts
(`phase['id'] as WorkflowPhase`, `phase['creator'] as string`, ...) do; after
validation these fields are strings, so the default is never exercised there. -/
def yamlStr (v : Option Yaml) : Option String :=
  match v with
  | some (.str s) => some s
  | _ => none

/-- Builds the `Phase <index> ...` validation messages
(TS template literals in `validatePhase` and friends). -/
def phaseErr (index : Nat) (tail : String) : String :=
  "Phase " ++ toString index ++ tail

/-- `Iterative phase <index> ...` messages. -/
def iterativePhaseErr (index : Nat) (tail : String) : String :=
  "Iterative phase " ++ toString index ++ tail

/-- `Test execution phase <index> ...` messages. -/
def testExecPhaseErr (index : Nat) (tail : String) : String :=
  "Test execution phase " ++ toString index ++ tail

/-- The sequence view of a field: `Array.isArray(x)` yields the elements. -/
def yamlArr : Option Yaml → Option (List Yaml)
  | some (.arr xs) => some xs
  | _ => none

/-- `WorkflowLoader.validateIterativePhase` (lines 200-224).  Returns `some err` on
the first failing rule, `none` when valid; `!Array.isArray(x) || x.length === 0`
appears as the not-an-array match arm plus the emptiness test.  Note: only
`Array.isArray` and non-emptiness are checked for `reviewers`/`verifiers`;
element types are not. -/
def validateIterativePhase (p : Yaml) (index : Nat) : Option String :=
  if !(p.truthyStringField "creator") then
    some (iterativePhaseErr index (" must have a \"creator\" agent"))
  else
    match yamlArr (p.getField "reviewers") with
    | none => some (iterativePhaseErr index (" must have at least one reviewer"))
    | some reviewers =>
      if reviewers.isEmpty then
        some (iterativePhaseErr index (" must have at least one reviewer"))
      else
        match yamlArr (p.getField "verifiers") with
        | none => some (iterativePhaseErr index (" must have at least one verifier"))
        | some verifiers =>
          if verifiers.isEmpty then
            some (iterativePhaseErr index (" must have at least one verifier"))
          else if reviewers.length != verifiers.length then
            some (iterativePhaseErr index
              (" must have equal numbers of reviewers and verifiers"))
          else none

/-- `WorkflowLoader.validateTestExecutionPhase` (lines 229-242). -/
def validateTestExecutionPhase (p : Yaml) (index : Nat) : Option String :=
  if !(p.truthyStringField "tester") then
    some (testExecPhaseErr index (" must have a \"tester\" agent"))
  else if !(p.truthyStringField "fixer") then
    some (testExecPhaseErr index (" must have a \"fixer\" agent"))
  else none

/-- `WorkflowLoader.validatePhase` (lines 163-195).  After the `type` field is
known to be a truthy string, `ty` is that string. -/
def validatePhase (phase : Yaml) (index : Nat) : Option String :=
  if phase.falsy || !phase.typeofObject then
    some (phaseErr index (" must be an object"))
  else if !(phase.truthyStringField "id") then
    some (phaseErr index (" must have an \"id\" string field"))
  else if !(phase.truthyStringField "type") then
    some (phaseErr index (" must have a \"type\" string field"))
  else
    let ty := (yamlStr (phase.getField "type")).getD ""
    if ty == "iterative" then validateIterativePhase phase index
    else if ty == "test-execution" then validateTestExecutionPhase phase index
    else some (phaseErr index
      (" has invalid type \"" ++ ty ++ "\". Must be one of: iterative, test-execution"))

/-- The `for (const [index, phase] of phases.entries())` loop inside
`validateDefinition`: first failure wins. -/
def validatePhases : List Yaml → Nat → Option String
  | [], _ => none
  | p :: rest, index =>
    match validatePhase p index with
    | some err => some err
    | none => validatePhases rest (index + 1)

/-- `!x[key] || typeof x[key] !== 'number'` negated: the field is a truthy
(non-zero) number. -/
def Yaml.truthyNumberField (v : Yaml) (key : String) : Bool :=
  match v.getField key with
  | some (.num n) => n != 0
  | _ => false

/-- `WorkflowLoader.validateDefinition` (lines 135-157).  The `version` check is
`!parsed['version'] || typeof parsed['version'] !== 'number'`: any truthy number
(i.e. any non-zero number) passes. -/
def validateDefinition (parsed : Yaml) : Option String :=
  if !(parsed.truthyStringField "name") then
    some ("Workflow must have a \"name\" string field")
  else if !(parsed.truthyNumberField "version") then
    some ("Workflow must have a \"version\" number field")
  else
    match yamlArr (parsed.getField "phases") with
    | none => some ("Workflow must have at least one phase")
    | some phases =>
      if phases.isEmpty then some ("Workflow must have at least one phase")
      else validatePhases phases 0

/-- Reads a YAML scalar as a workflow variable value; the TS cast
`parsed['variables'] as WorkflowVariables` asserts primitives, so non-primitive
values (which no modelled flow produces) are dropped. -/
def yamlToVar : Yaml → Option VarValue
  | .str s => some (.str s)
  | .num n => some (.num n)
  | .bool b => some (.bool b)
  | _ => none

/-- The `variables` merge in `normalizeDefinition`:
`{ ...DEFAULT_WORKFLOW_VARIABLES, ...parsed['variables'] }`.  Lookup on the
association list is first-match, so user entries are listed first to give them
precedence over the defaults. -/
def mergeVariables (parsedVars : Option Yaml) : List (String × VarValue) :=
  match parsedVars with
  | some (.obj fields) =>
    let user := fields.filterMap (fun kv => (yamlToVar kv.2).map (fun v => (kv.1, v)))
    user ++ DEFAULT_WORKFLOW_VARIABLES.filter (fun kv => (user.lookup kv.1).isNone)
  | _ => DEFAULT_WORKFLOW_VARIABLES

/-- `string[]` cast for `context`: validation does not inspect it, and the
modelled flows use string entries only. -/
def yamlStrList (v : Option Yaml) : Option (List String) :=
  match v with
  | some (.arr xs) => some (xs.filterMap (fun x => yamlStr (some x)))
  | _ => none

/-- `PhaseOutputs` cast for `outputs`: a map of string templates. -/
def yamlOutputs (v : Option Yaml) : Option (List (String × String)) :=
  match v with
  | some (.obj fields) =>
    some (fields.filterMap (fun kv => (yamlStr (some kv.2)).map (fun s => (kv.1, s))))
  | _ => none

/-- `(phase['min_iterations'] as number) ?? 1`; non-numeric values are not
exercised by any modelled flow. -/
def yamlMinIterations (v : Option Yaml) : Int :=
  match v with
  | some (.num n) => n
  | _ => 1

/-- `phase['max_iterations'] as number | undefined` (a YAML `null` behaves like
`undefined` at every use site, both being falsy). -/
def yamlMaxIterations (v : Option Yaml) : Option Int :=
  match v with
  | some (.num n) => some n
  | _ => none

/-- `WorkflowLoader.normalizePhase` (lines 271-298). -/
def normalizePhase (phase : Yaml) : PhaseDef :=
  let id := (yamlStr (phase.getField "id")).getD ""
  let outputs := yamlOutputs (phase.getField "outputs")
  let context := yamlStrList (phase.getField "context")
  let min_iterations := yamlMinIterations (phase.getField "min_iterations")
  let max_iterations := yamlMaxIterations (phase.getField "max_iterations")
  if yamlStr (phase.getField "type") == some "iterative" then
    .iterative
      { id := id
        creator := (yamlStr (phase.getField "creator")).getD ""
        reviewers := (yamlStrList (phase.getField "reviewers")).getD []
        verifiers := (yamlStrList (phase.getField "verifiers")).getD []
        outputs := outputs
        context := context
        min_iterations := min_iterations
        max_iterations := max_iterations
        checkpoint_message := yamlStr (phase.getField "checkpoint_message") }
  else
    .testExecution
      { id := id
        tester := (yamlStr (phase.getField "tester")).getD ""
        fixer := (yamlStr (phase.getField "fixer")).getD ""
        outputs := outputs
        context := context
        min_iterations := min_iterations
        max_iterations := max_iterations }

/-- `WorkflowLoader.normalizeDefinition` (lines 247-266). -/
def normalizeDefinition (parsed : Yaml) : WorkflowDefinitionN where
  name := (yamlStr (parsed.getField "name")).getD ""
  version := match parsed.getField "version" with
    | some (.num n) => n
    | _ => 0
  description := yamlStr (parsed.getField "description")
  «variables» := mergeVariables (parsed.getField "variables")
  phases := match parsed.getField "phases" with
    | some (.arr xs) => xs.map normalizePhase
    | _ => []
  output_dir := (yamlStr (parsed.getField "output_dir")).getD ".cursor/agents/workflow"
  input_file := yamlStr (parsed.getField "input_file")

/-- Shared body of the two load operations after YAML parsing succeeded
(WorkflowLoader lines 54-82 / 102-122): object check, validation, normalization. -/
def loadParsed (parsed : Yaml) : WorkflowLoadResult :=
  if parsed.falsy || !parsed.typeofObject then
    { success := false, error := some ("Invalid YAML: Expected an object") }
  else
    match validateDefinition parsed with
    | some err => { success := false, error := some err }
    | none => { success := true, definition := some (normalizeDefinition parsed) }

/-- `WorkflowLoader.loadFromString` (lines 98-130).  The argument is the outcome
of `yaml.load(yamlContent)`: `Except.error e` when the parser threw (caught by
the surrounding `try`), `Except.ok parsed` otherwise. -/
def loadFromString (parseResult : Except String Yaml) : WorkflowLoadResult :=
  match parseResult with
  | .error e => { success := false, error := some ("Failed to parse YAML: " ++ e) }
  | .ok parsed => loadParsed parsed

/-- `WorkflowLoader.loadFromFile` (lines 43-93).  The argument is the combined
outcome of `fs.promises.readFile` and `yaml.load` (both may throw; both throws
are caught by the same `try` and formatted with the same prefix);
`resolvedPath` is the path the external `path.resolve` produced. -/
def loadFromFile (resolvedPath : String)
    (readResult : Except String (Except String Yaml)) : WorkflowLoadResult :=
  match readResult with
  | .error e =>
    { success := false, error := some ("Failed to load workflow: " ++ e),
      source_path := some resolvedPath }
  | .ok (.error e) =>
    { success := false, error := some ("Failed to load workflow: " ++ e),
      source_path := some resolvedPath }
  | .ok (.ok parsed) => { loadParsed parsed with source_path := some resolvedPath }

/-! ### Template interpolation (src/workflow/WorkflowLoader.ts lines 304-360)

`interpolate` replaces every regex match of `\{\{\s*([^}]+)\s*\}\}` using a
resolution callback; unknown names leave the matched text in place.  The scanner
below reproduces the regex engine's behaviour on this pattern: a match is `{{`,
a non-empty run of non-`}` characters, then `}}`; on failure the scan resumes one
character later, on success after the consumed match.  The callback trims the
captured text, so the `\s*` backtracking inside the pattern is immaterial. -/

/-- `InterpolationContext` from src/types/WorkflowDefinition.ts.  The `phases`
map's values carry an optional `outputs` map of resolved strings. -/
structure InterpolationContext where
  «variables» : List (String × VarValue)
  iteration : Int
  phase : String
  phases : Option (List (String × Option (List (String × String)))) := none

/-- The replacement callback of `WorkflowLoader.interpolate` (lines 305-341):
variables first, then the special names `iteration` / `phase`, then
`phases.<id>.outputs.<key>`; `none` means "leave the match in place". -/
def resolvePlaceholder (context : InterpolationContext) (trimmedPath : String) :
    Option String :=
  match context.«variables».lookup trimmedPath with
  | some v => some v.jsString
  | none =>
    if trimmedPath == "iteration" then some (toString context.iteration)
    else if trimmedPath == "phase" then some context.phase
    else if trimmedPath.startsWith "phases." then
      match context.phases with
      | some phaseMap =>
        let parts := trimmedPath.splitOn "."
        if parts.length ≥ 3 then
          match parts[1]? with
          | some phaseId =>
            match phaseMap.lookup phaseId with
            | some phaseData =>
              if parts[2]? == some "outputs" then
                match phaseData, parts[3]? with
                | some outputs, some key =>
                  if key == "" then none
                  else outputs.lookup key
                | _, _ => none
              else none
            | none => none
          | none => none
        else none
      | none => none
    else none

/-- JS `String.prototype.trim` on a character list (structural, so concrete
templates evaluate by kernel reduction; only ASCII whitespace occurs in the
modelled templates). -/
def trimChars (cs : List Char) : List Char :=
  ((cs.dropWhile Char.isWhitespace).reverse.dropWhile Char.isWhitespace).reverse

/-- Scanner for the global regex replace in `interpolate`.  Recursion is by fuel
so the definition is structurally recursive (and kernel-reducible); every step
consumes at least one character, so fuel equal to the input length never runs
out — the `0` branch is unreachable from `interpolate`. -/
def interpolateAux (resolve : String → Option String) : Nat → List Char → List Char
  | 0, cs => cs
  | _ + 1, [] => []
  | fuel + 1, '{' :: '{' :: rest =>
    let inner := rest.takeWhile (fun c => c ≠ '}')
    let after := rest.drop inner.length
    if inner ≠ [] ∧ after.take 2 = ['}', '}'] then
      (match resolve (String.mk (trimChars inner)) with
        | some v => v.data
        | none => '{' :: '{' :: inner ++ ['}', '}']) ++
      interpolateAux resolve fuel (after.drop 2)
    else
      '{' :: interpolateAux resolve fuel ('{' :: rest)
  | fuel + 1, c :: rest => c :: interpolateAux resolve fuel rest

/-- `WorkflowLoader.interpolate` (lines 304-342). -/
def interpolate (template : String) (context : InterpolationContext) : String :=
  String.mk
    (interpolateAux (resolvePlaceholder context) template.data.length template.data)

/-- `WorkflowLoader.interpolateOutputs` (lines 347-360). -/
def interpolateOutputs (outputs : Option (List (String × String)))
    (context : InterpolationContext) : Option (List (String × String)) :=
  match outputs with
  | none => none
  | some entries => some (entries.map (fun kv => (kv.1, interpolate kv.2 context)))

/-! ### Workflow executor (src/workflow/WorkflowExecutor.ts)

Agent invocations (`runAgent`) and the filesystem are external: a step receives
the per-agent success flags as data, and `resolveContextFiles` receives an
`existsFile` oracle standing for `fs.promises.stat(...).isFile()`.  `Date.parse`
on ISO timestamps is the external `timeOf` oracle.  `path.join` concatenates
with a separator (its normalisation does not affect any modelled claim). -/

/-- `path.join(a, b)` as used for output paths. -/
def pathJoin (a b : String) : String := a ++ "/" ++ b

/-- JS `a || b` on strings (`""` is falsy). -/
def jsOrString (a b : String) : String := if a == "" then b else a

/-- JS `a?.k || b` on an optional outputs map. -/
def outputsField (outputs : Option (List (String × String))) (key fallback : String) :
    String :=
  match outputs with
  | none => fallback
  | some entries =>
    match entries.lookup key with
    | some v => jsOrString v fallback
    | none => fallback

/-- Substring occurrence over character lists. -/
def containsSub (hay needle : List Char) : Bool :=
  if needle.isPrefixOf hay then true
  else
    match hay with
    | [] => false
    | _ :: t => containsSub t needle

/-- JS `String.prototype.includes`. -/
def jsIncludes (s sub : String) : Bool := containsSub s.data sub.data

/-- `WorkflowExecutor.getNextPhase` (lines 902-911): `findIndex` on the phase id,
`undefined` at the end or when the id is absent. -/
def getNextPhase (defn : WorkflowDefinitionN) (currentPhaseId : String) :
    Option PhaseDef :=
  match defn.phases.findIdx? (fun p => p.id == currentPhaseId) with
  | none => none
  | some i => defn.phases[i + 1]?

/-- `WorkflowExecutor.resolveContextFiles` (lines 724-743): interpolate each
pattern and keep those that currently exist as files on disk. -/
def resolveContextFiles (patterns : Option (List String))
    (context : InterpolationContext) (existsFile : String → Bool) : List String :=
  match patterns with
  | none => []
  | some ps => (ps.map (fun p => interpolate p context)).filter existsFile

/-- The context files `WorkflowExecutor.runCreatorStep` passes to the creator
agent (lines 213-227): the resolved phase context templates, plus — when
`state.iteration > 1` — the feedback files of the previous iteration's
unaddressed feedback records. -/
def creatorContextFiles (phase : IterativePhaseDef) (state : WorkflowState)
    (context : InterpolationContext) (existsFile : String → Bool) : List String :=
  let contextFiles := resolveContextFiles phase.context context existsFile
  if state.iteration > 1 then
    contextFiles ++
      (state.feedback_history.filter
        (fun f => f.iteration == state.iteration - 1 && !f.addressed)).map
        (fun f => f.feedback_file)
  else contextFiles

/-- `[...].sort((a, b) => Date.parse(b) - Date.parse(a))[0]`: the first element
of the stable descending sort by `created_at`, i.e. the earliest-listed record
with the maximal timestamp. -/
def pickLatest (timeOf : String → Int) : List ArtifactRecord → Option ArtifactRecord
  | [] => none
  | a :: rest =>
    match pickLatest timeOf rest with
    | none => some a
    | some b => if timeOf b.created_at > timeOf a.created_at then some b else some a

/-- One pass of the verification fan-in: each verifier whose invocation
succeeded records a verification artifact at
`<verifyDir>/<verifier>-v<iter>.md`. -/
def recordVerificationArtifactsAux (verifyDir : String) (iter : Int) (now : String) :
    WorkflowState → List (String × Bool) → WorkflowState
  | s, [] => s
  | s, vr :: rest =>
    recordVerificationArtifactsAux verifyDir iter now
      (if vr.2 then
        addArtifactPure s .verification
          (pathJoin verifyDir (vr.1 ++ "-v" ++ toString iter ++ ".md")) vr.1 now
      else s) rest

/-- The fan-in bookkeeping of `runVerificationStep` (lines 354-377): each
verifier whose invocation succeeded records a verification artifact
(`addArtifact` with `type: 'verification'`).  (The insertion order across the
parallel branches is nondeterministic; it does not affect any field the claims
read, and is modelled as verifier order.) -/
def recordVerificationArtifacts (phase : IterativePhaseDef) (state : WorkflowState)
    (results : List Bool) (verifyDir : String) (now : String) : WorkflowState :=
  recordVerificationArtifactsAux verifyDir state.iteration now state
    (phase.verifiers.zip results)

/-- `WorkflowExecutor.runVerificationStep` (lines 323-464).  `results` are the
per-verifier `runAgent` success flags (in verifier order), `timeOf` is
`Date.parse`, `now` the wall clock.  Returns `none` where the TS code throws
(`No artifact found for verification`); otherwise the updated workflow state. -/
def runVerificationStep (defn : WorkflowDefinitionN) (phase : IterativePhaseDef)
    (state : WorkflowState) (context : InterpolationContext) (results : List Bool)
    (timeOf : String → Int) (now : String) : Option WorkflowState :=
  let currentArtifact := pickLatest timeOf
    (state.artifacts.filter
      (fun a => a.iteration == state.iteration && a.type != .review))
  match currentArtifact with
  | none => none
  | some _ =>
    let outputs := interpolateOutputs phase.outputs context
    let verifyDir := outputsField outputs "verifications"
      (pathJoin (jsOrString defn.output_dir ".cursor/agents/workflow") "verifications")
    let state' := recordVerificationArtifacts phase state results verifyDir now
    let successCount := results.count true
    let allPassed := successCount == phase.verifiers.length
    let minIterationsReached :=
      state.iteration ≥ (if phase.min_iterations == 0 then 1 else phase.min_iterations)
    let maxIterationsReached := match phase.max_iterations with
      | some m => if m == 0 then false else state.iteration ≥ m
      | none => false
    if maxIterationsReached then
      match getNextPhase defn phase.id with
      | some nextPhase =>
        some (updateWorkflowPure state'
          { phase := some nextPhase.id, iteration := some 1, status := some .working } now)
      | none => some (updateWorkflowPure state' { status := some .complete } now)
    else if allPassed && minIterationsReached then
      match getNextPhase defn phase.id with
      | some nextPhase =>
        some (updateWorkflowPure state'
          { phase := some nextPhase.id, iteration := some 1, status := some .working } now)
      | none => some (updateWorkflowPure state' { status := some .complete } now)
    else
      some (pauseAtCheckpointPure state'
        ("Verification complete. Review findings and decide: continue, iterate, or approve.")
        now)

/-- `WorkflowExecutor.inferPhaseFromArtifact` (lines 821-867). -/
def inferPhaseFromArtifact (artifact : ArtifactRecord) (defn : WorkflowDefinitionN) :
    Option String :=
  match defn.phases.find?
      (fun phase => jsIncludes artifact.file ("/" ++ phase.id ++ "/") ||
        jsIncludes artifact.file ("\\" ++ phase.id ++ "\\")) with
  | some phase => some phase.id
  | none =>
    match artifact.type with
    | .plan =>
      if jsIncludes artifact.created_by "plan" || artifact.created_by == "plan-creator" then
        some "planning"
      else if jsIncludes artifact.created_by "test" || artifact.created_by == "test-writer" then
        some "testing-setup"
      else some "planning"
    | .implementation => some "implementation"
    | .testResult => some "testing-execution"
    | .verification | .review =>
      match defn.phases.find?
          (fun phase => match phase with
            | .iterative p =>
              p.verifiers.contains artifact.created_by ||
                p.reviewers.contains artifact.created_by
            | .testExecution _ => false) with
      | some phase => some phase.id
      | none => none

/-- `WorkflowExecutor.inferPhaseFromFeedback` (lines 872-885). -/
def inferPhaseFromFeedback (feedback : FeedbackRecord) (defn : WorkflowDefinitionN) :
    Option String :=
  match defn.phases.find?
      (fun phase => match phase with
        | .iterative p => p.reviewers.contains feedback.reviewer
        | .testExecution _ => false) with
  | some phase => some phase.id
  | none => none

/-- `path.dirname` for the forward-slash paths the executor builds: everything
before the last separator (the exact node semantics on degenerate inputs are
not exercised by the claims). -/
def pathDirname (p : String) : String :=
  let parts := p.splitOn "/"
  if parts.length ≤ 1 then "." else String.intercalate "/" (parts.dropLast)

/-- Applies one artifact to a phases-outputs map, as the `switch` in
`buildInterpolationContext` (lines 776-794) does. -/
def applyArtifactOutputs (outputs : List (String × String)) (artifact : ArtifactRecord) :
    List (String × String) :=
  match artifact.type with
  | .plan | .implementation => ("artifact", artifact.file) :: outputs.filter (fun kv => kv.1 != "artifact")
  | .review => ("reviews", pathDirname artifact.file) :: outputs.filter (fun kv => kv.1 != "reviews")
  | .verification =>
    ("verifications", pathDirname artifact.file) :: outputs.filter (fun kv => kv.1 != "verifications")
  | .testResult =>
    ("test_results", pathDirname artifact.file) ::
      ("artifact", artifact.file) ::
        (outputs.filter (fun kv => kv.1 != "artifact")).filter (fun kv => kv.1 != "test_results")

/-- Updates the phases map at `phaseId` (creating the entry if absent, as the
`if (!phases[phaseId])` branches do). -/
def updatePhaseOutputs (phases : List (String × Option (List (String × String))))
    (phaseId : String) (f : List (String × String) → List (String × String)) :
    List (String × Option (List (String × String))) :=
  match phases.lookup phaseId with
  | some entry =>
    (phaseId, some (f (entry.getD []))) :: phases.filter (fun kv => kv.1 != phaseId)
  | none => (phaseId, some (f [])) :: phases

/-- `WorkflowExecutor.buildInterpolationContext` (lines 751-816): initialise an
empty outputs map per definition phase, fold the artifacts, then the feedback
records, and pair the result with the live `iteration`/`phase` and the
definition's variables. -/
def buildInterpolationContext (defn : WorkflowDefinitionN) (state : WorkflowState) :
    InterpolationContext :=
  let phases0 : List (String × Option (List (String × String))) :=
    defn.phases.map (fun p => (p.id, some []))
  let phases1 := state.artifacts.foldl
    (fun phases artifact =>
      match inferPhaseFromArtifact artifact defn with
      | none => phases
      | some phaseId => updatePhaseOutputs phases phaseId
          (fun outputs => applyArtifactOutputs outputs artifact))
    phases0
  let phases2 := state.feedback_history.foldl
    (fun phases feedback =>
      match inferPhaseFromFeedback feedback defn with
      | none => phases
      | some phaseId => updatePhaseOutputs phases phaseId
          (fun outputs =>
            ("reviews", pathDirname feedback.feedback_file) ::
              outputs.filter (fun kv => kv.1 != "reviews")))
    phases1
  { «variables» := defn.«variables»
    iteration := state.iteration
    phase := state.phase
    phases := some phases2 }

/-! ### Token budget (src/utils/TokenBudget.ts)

`estimateTokensForModel` computes `percentage = tokens / limit` in binary64 and
compares it against the literals `0.8` and `0.95`.  For integer token counts and
the limits in `MODEL_TOKEN_LIMITS` (all ≤ 200 000) the comparison is exact in the
rationals: the spacing of attainable `tokens / limit` values is at least
`1 / 200000 = 5e-6`, while the distance between `0.8` (resp. `0.95`) and its
nearest binary64 neighbour, and the division's rounding error near 1, are below
`1e-15`; binary64 rounding is monotone, so `fl(tokens / limit) > fl(0.8)` holds
exactly when `tokens / limit > 4 / 5` over ℚ, and likewise for `0.95` and
`19 / 20`.  The embedding therefore carries `percentage` as a rational and the
threshold tests as the equivalent integer comparisons. -/

/-- `MODEL_TOKEN_LIMITS` from src/utils/TokenBudget.ts. -/
def MODEL_TOKEN_LIMITS : List (String × Nat) :=
  [("claude-opus-4-5", 200000), ("claude-sonnet-4-5", 200000),
   ("gpt-5-2-codex", 128000), ("default", 100000)]

/-- `estimateTokens` (lines 86-90): `Math.ceil(text.length / 4)` (exact in
binary64 for any attainable length). -/
def estimateTokens (text : String) : Nat := (text.length + 3) / 4

/-- `getModelLimit` (lines 99-105).  The argument is `string | undefined`; the
`if (!model)` guard also sends the empty string to the default. -/
def getModelLimit (model : Option String) : Nat :=
  let defaultLimit := (MODEL_TOKEN_LIMITS.lookup "default").getD 0
  match model with
  | none => defaultLimit
  | some m =>
    if m == "" then defaultLimit
    else (MODEL_TOKEN_LIMITS.lookup m).getD defaultLimit

/-- `TokenEstimate` from src/utils/TokenBudget.ts. -/
structure TokenEstimate where
  tokens : Nat
  characters : Nat
  percentage : ℚ
  model : String
  limit : Nat
  exceedsWarning : Bool
  exceedsError : Bool
  deriving DecidableEq, Repr

/-- `estimateTokensForModel` (lines 113-127); the threshold comparisons
`percentage > 0.8` / `percentage > 0.95` are carried as the exactly equivalent
integer comparisons (see the section comment). -/
def estimateTokensForModel (text : String) (model : Option String) : TokenEstimate :=
  let tokens := estimateTokens text
  let limit := getModelLimit model
  { tokens := tokens
    characters := text.length
    percentage := (tokens : ℚ) / (limit : ℚ)
    model := (model.getD "default") |> (fun m => if m == "" then "default" else m)
    limit := limit
    exceedsWarning := 5 * tokens > 4 * limit
    exceedsError := 20 * tokens > 19 * limit }

/-- `TokenBudgetValidation` from src/utils/TokenBudget.ts. -/
structure TokenBudgetValidation where
  valid : Bool
  estimate : TokenEstimate
  warning : Option String := none
  error : Option String := none
  recommendation : Option String := none
  deriving DecidableEq, Repr

/-- JS `Math.round` (half away from zero on the values arising here). -/
def jsRound (q : ℚ) : Int := ⌊q + 1 / 2⌋

/-- `validateTokenBudget` (lines 135-161).  Message text reproduces the template
literals, with plain decimal rendering in place of `toLocaleString`'s locale
grouping. -/
def validateTokenBudget (text : String) (model : Option String) :
    TokenBudgetValidation :=
  let estimate := estimateTokensForModel text model
  if estimate.exceedsError then
    { valid := false
      estimate := estimate
      error := some ("Context is ~" ++ toString estimate.tokens ++ " tokens (" ++
        toString (jsRound (estimate.percentage * 100)) ++ "% of " ++ estimate.model ++
        " limit: " ++ toString estimate.limit ++ "). This exceeds the safe limit.")
      recommendation := some ("Consider: (1) Reducing context files, (2) Summarizing " ++
        "large files, (3) Using a model with higher token limit, or (4) Splitting the task.") }
  else if estimate.exceedsWarning then
    { valid := true
      estimate := estimate
      warning := some ("Context is ~" ++ toString estimate.tokens ++ " tokens (" ++
        toString (jsRound (estimate.percentage * 100)) ++ "% of " ++ estimate.model ++
        " limit). Consider reducing context to avoid issues.") }
  else
    { valid := true, estimate := estimate }

/-! ### The continue_workflow operation (src/tools/ContinueWorkflowTool.ts)

`execute` validates, loads the state, records the checkpoint, and applies the
special cases.  The local `state` obtained from `getWorkflow` is the very object
the manager's cache holds, so after `recordCheckpoint` runs, reads of
`state.iteration` / `state.phase` in the tool observe the mutated values —
`recordCheckpoint` leaves `phase` alone but increments `iteration` for
`iterate`.  The model threads the updated state for those reads. -/

/-- Rendering of a status for the "not at a checkpoint" message. -/
def WorkflowStatus.text : WorkflowStatus → String
  | .idle => "idle"
  | .working => "working"
  | .reviewing => "reviewing"
  | .verifying => "verifying"
  | .checkpoint => "checkpoint"
  | .complete => "complete"
  | .rejected => "rejected"

/-- `ContinueWorkflowTool.execute` (lines 158-285) on an existing workflow's
state; `Except.error` bundles every `isError` response.  Parameter validation
(lines 108-153) rejects the `reject` decision and requires a truthy `feedback`
for `iterate`. -/
def continueWorkflowExecute (s : WorkflowState) (decision : CheckpointDecision)
    (feedback : Option String) (next_phase : Option String) (now : String) :
    Except String WorkflowState :=
  if decision == .reject then
    .error ("Decision must be one of: continue, iterate, approve")
  else if decision == .iterate && feedback.getD "" == "" then
    .error ("Feedback is required when decision is \"iterate\"")
  else if next_phase.isSome &&
      !(["planning", "implementation", "testing-setup", "testing-execution"].contains
        (next_phase.getD "")) then
    .error ("Next phase must be one of: planning, implementation, testing-setup, testing-execution")
  else if s.status != .checkpoint then
    .error ("Workflow '" ++ s.workflow_id ++ "' is not at a checkpoint.\n\nCurrent status: " ++
      s.status.text)
  else
    let s1 := recordCheckpointPure s decision feedback now
    -- test-execution special case (lines 203-210); `state.phase` and
    -- `state.iteration` read the object recordCheckpoint just mutated
    let s2 :=
      if decision == .iterate && s1.phase == "testing-execution" then
        updateWorkflowPure s1
          { iteration := some s1.iteration, status := some .verifying } now
      else s1
    -- approve + next_phase (lines 213-219)
    let s3 :=
      if decision == .approve && next_phase.isSome then
        updateWorkflowPure s2
          { phase := next_phase, iteration := some 1, status := some .working } now
      else s2
    .ok s3

/-! ### Claim C10 -/

/-- C10: the store's partial update modifies exactly the option-present fields
among `phase`, `iteration`, `status`, `current_artifact`, `checkpoint_message`,
plus `updated_at`; `workflow_id`, `created_at`, `artifacts`, `feedback_history`,
`checkpoints_passed`, `agent_runs` and `reviewer_verifier_map` are unchanged. -/
theorem updateWorkflow_frame (s : WorkflowState) (o : WorkflowUpdateOptions)
    (now : String) :
    (updateWorkflowPure s o now).workflow_id = s.workflow_id ∧
    (updateWorkflowPure s o now).created_at = s.created_at ∧
    (updateWorkflowPure s o now).artifacts = s.artifacts ∧
    (updateWorkflowPure s o now).feedback_history = s.feedback_history ∧
    (updateWorkflowPure s o now).checkpoints_passed = s.checkpoints_passed ∧
    (updateWorkflowPure s o now).agent_runs = s.agent_runs ∧
    (updateWorkflowPure s o now).reviewer_verifier_map = s.reviewer_verifier_map ∧
    (updateWorkflowPure s o now).updated_at = now ∧
    (updateWorkflowPure s o now).phase = o.phase.getD s.phase ∧
    (updateWorkflowPure s o now).iteration = o.iteration.getD s.iteration ∧
    (updateWorkflowPure s o now).status = o.status.getD s.status ∧
    (updateWorkflowPure s o now).current_artifact = o.current_artifact.or s.current_artifact ∧
    (updateWorkflowPure s o now).checkpoint_message = o.checkpoint_message.or s.checkpoint_message := by
  obtain ⟨p, i, st, ca, cm⟩ := o
  cases p <;> cases i <;> cases st <;> cases ca <;> cases cm <;>
    simp [updateWorkflowPure, saveWorkflowPure, Option.getD, Option.or]

/-! ### Claim C3 -/

/-- A workflow paused at a checkpoint with a pending message. -/
def c3State : WorkflowState :=
  { createWorkflowState "wf1" "planning" "2024-01-01T00:00:00.000Z" with
      status := .checkpoint, checkpoint_message := some ("Review the plan") }

/-- C3 counterexample: recording a `continue` decision does *not* clear
`checkpoint_message` (the claim's §4.1 row says it does). -/
theorem recordCheckpoint_continue_keeps_message :
    (recordCheckpointPure c3State .continueDecision none "t1").checkpoint_message ≠ none := by
  decide

/-- C3 (amended): `record_checkpoint` appends one `CheckpointRecord` and applies
the table with `continue` leaving `checkpoint_message` unchanged (as does
`reject`, which keeps the reason in the appended record). -/
theorem recordCheckpoint_table (s : WorkflowState) (d : CheckpointDecision)
    (f : Option String) (now : String) :
    (recordCheckpointPure s d f now).checkpoints_passed =
      s.checkpoints_passed ++ [⟨s.iteration, d, f, now⟩] ∧
    (recordCheckpointPure s d f now).iteration =
      s.iteration + (if d = .iterate then 1 else 0) ∧
    (recordCheckpointPure s d f now).status =
      (match d with
        | .continueDecision => .working
        | .iterate => .working
        | .approve => .complete
        | .reject => .rejected) ∧
    (recordCheckpointPure s d f now).checkpoint_message =
      (match d with
        | .iterate => none
        | .approve => none
        | _ => s.checkpoint_message) := by
  cases d <;> simp [recordCheckpointPure, saveWorkflowPure]

/-! ### Claim C1 -/

/-- A `testing-execution` workflow paused at a checkpoint at iteration 1. -/
def c1State : WorkflowState :=
  { createWorkflowState "wf-test" "testing-execution" "2024-01-01T00:00:00.000Z" with
      status := .checkpoint, checkpoint_message := some ("Test results available") }

/-- C1: executing `continue_workflow` with `decision = iterate` on a
`testing-execution` workflow at checkpoint.  The tool's "revert" writes back
`state.iteration` read from the object `recordCheckpoint` had already
incremented, so the iteration ends at 2, not the pre-call 1 the claim (and the
code's own comments) require; the status does become `verifying`. -/
theorem continueWorkflow_testExecution_iterate_bug :
    c1State.iteration = 1 ∧
    ((continueWorkflowExecute c1State .iterate (some "fix E001") none "t1").toOption.map
      (fun s => (s.iteration, s.status))) = some (2, .verifying) := by
  decide

/-! ### Claim C5 -/

/-- A syntactically valid workflow document whose `version` is the negative
number `-2`. -/
def c5Doc : Yaml :=
  .obj [("name", .str "wf"), ("version", .num (-2)),
    ("phases", .arr [.obj [("id", .str "planning"), ("type", .str "iterative"),
      ("creator", .str "plan-creator"),
      ("reviewers", .arr [.str "r1"]), ("verifiers", .arr [.str "v1"])]])]

/-- C5 counterexample: the loader accepts `version: -2`, so a successful load
does not guarantee `version ≥ 1`, and a document whose version is not a
positive integer is not rejected. -/
theorem loadFromString_accepts_negative_version :
    (loadFromString (.ok c5Doc)).success = true ∧
    ((loadFromString (.ok c5Doc)).definition.map (fun d => d.version)) = some (-2) ∧
    ¬((-2 : Int) ≥ 1) := by
  decide

/-- Passing `validateDefinition` pins the `version` field to a non-zero number. -/
theorem validateDefinition_version_field (parsed : Yaml)
    (h : validateDefinition parsed = none) :
    ∃ n : Int, parsed.getField "version" = some (.num n) ∧ n ≠ 0 := by
  unfold validateDefinition at h
  by_cases h1 : (!parsed.truthyStringField "name") = true
  · rw [if_pos h1] at h
    cases h
  · rw [if_neg h1] at h
    by_cases h2 : (!parsed.truthyNumberField "version") = true
    · rw [if_pos h2] at h
      cases h
    · have h3 : parsed.truthyNumberField "version" = true := by
        cases hx : parsed.truthyNumberField "version"
        · simp [hx] at h2
        · rfl
      unfold Yaml.truthyNumberField at h3
      rcases hv : parsed.getField "version" with _ | v
      · rw [hv] at h3
        simp at h3
      · rw [hv] at h3
        cases v <;> simp at h3
        next n => exact ⟨n, rfl, h3⟩

/-- C5 (amended): a successful load yields a definition whose `version` is a
non-zero number, and any document whose `version` field is missing, zero, or
not a number is rejected (`success = false`). -/
theorem loadFromString_version_nonzero :
    (∀ pr : Except String Yaml, (loadFromString pr).success = true →
      ∃ d, (loadFromString pr).definition = some d ∧ d.version ≠ 0) ∧
    (∀ doc : Yaml,
      (match doc.getField "version" with
        | some (.num n) => n = 0
        | some _ => True
        | none => True) →
      (loadFromString (.ok doc)).success = false) := by
  constructor
  · intro pr hs
    match pr with
    | .error e => simp [loadFromString] at hs
    | .ok parsed =>
      by_cases hobj : (parsed.falsy || !parsed.typeofObject) = true
      · simp [loadFromString, loadParsed, hobj] at hs
      · cases hv : validateDefinition parsed with
        | some err => simp [loadFromString, loadParsed, hobj, hv] at hs
        | none =>
          obtain ⟨n, hn, hnz⟩ := validateDefinition_version_field parsed hv
          refine ⟨normalizeDefinition parsed, ?_, ?_⟩
          · simp [loadFromString, loadParsed, hobj, hv]
          · simp [normalizeDefinition, hn, hnz]
  · intro doc hbad
    by_cases hobj : (doc.falsy || !doc.typeofObject) = true
    · simp [loadFromString, loadParsed, hobj]
    · cases hv : validateDefinition doc with
      | some err => simp [loadFromString, loadParsed, hobj, hv]
      | none =>
        obtain ⟨n, hn, hnz⟩ := validateDefinition_version_field doc hv
        rw [hn] at hbad
        simp at hbad
        exact absurd hbad hnz

/-- C5 witness data: a document rejected for its `version: 0`. -/
def c5ZeroDoc : Yaml := .obj [("name", .str "w"), ("version", .num 0)]

/-- Witness for the amended C5: both parts applied at concrete documents. -/
theorem loadFromString_version_nonzero_witness :
    (∃ d, (loadFromString (.ok c5Doc)).definition = some d ∧ d.version ≠ 0) ∧
    (loadFromString (.ok c5ZeroDoc)).success = false :=
  ⟨loadFromString_version_nonzero.1 (.ok c5Doc) (by decide),
   loadFromString_version_nonzero.2 c5ZeroDoc (by exact rfl)⟩

/-! ### Claim C6 -/

/-- The token limits exactly as the claim words them: 200000 for the Claude
models, 128000 for `gpt-5-2-codex`, 100000 otherwise.  Stated separately from
`MODEL_TOKEN_LIMITS` so the theorems below compare the code against the claim. -/
def claimTokenLimit (model : Option String) : Nat :=
  match model with
  | some m =>
    if m = "claude-opus-4-5" ∨ m = "claude-sonnet-4-5" then 200000
    else if m = "gpt-5-2-codex" then 128000
    else 100000
  | none => 100000

/-- The code's limit table agrees with the claim's. -/
theorem getModelLimit_eq_claim (m : Option String) :
    getModelLimit m = claimTokenLimit m := by
  cases m with
  | none => rfl
  | some s =>
    by_cases h1 : s = "claude-opus-4-5"
    · subst h1; rfl
    by_cases h2 : s = "claude-sonnet-4-5"
    · subst h2; rfl
    by_cases h3 : s = "gpt-5-2-codex"
    · subst h3; rfl
    by_cases h4 : s = ""
    · subst h4; rfl
    have b1 : (s == "claude-opus-4-5") = false := by simp [h1]
    have b2 : (s == "claude-sonnet-4-5") = false := by simp [h2]
    have b3 : (s == "gpt-5-2-codex") = false := by simp [h3]
    have b4 : (s == "") = false := by simp [h4]
    cases h5 : s == "default" <;>
      simp [getModelLimit, claimTokenLimit, MODEL_TOKEN_LIMITS, List.lookup,
        b1, b2, b3, b4, h5, h1, h2, h3]

/-- Any 320000-character text is estimated at 80000 tokens — exactly 80% of the
100000-token default limit — yet raises no warning: the code's threshold
comparison is strict (`>`) where the claim says `≥`.  (Stated over an abstract
text of that length so the instantiating theorem below stays cheap to check.) -/
theorem tokenBudget_boundary (text : String) (h : text.length = 320000) :
    100 * (estimateTokensForModel text (some "some-unknown-model")).tokens =
      80 * getModelLimit (some "some-unknown-model") ∧
    (estimateTokensForModel text (some "some-unknown-model")).exceedsWarning = false := by
  have htok : estimateTokens text = 80000 := by
    unfold estimateTokens
    rw [h]
  have hlim : getModelLimit (some "some-unknown-model") = 100000 := by rfl
  have hproj : (estimateTokensForModel text (some "some-unknown-model")).tokens =
      estimateTokens text := rfl
  have hwarn : (estimateTokensForModel text (some "some-unknown-model")).exceedsWarning =
      decide (5 * estimateTokens text > 4 * getModelLimit (some "some-unknown-model")) := rfl
  constructor
  · rw [hproj, htok, hlim]
  · rw [hwarn, htok, hlim]
    decide

/-- 320000 characters of `a`. -/
def c6Text : String := String.mk (List.replicate 320000 'a')

/-- The length of `c6Text`, computed without unfolding the character list. -/
theorem c6Text_length : c6Text.length = 320000 := by
  have h1 : c6Text.length = (List.replicate 320000 'a').length := by
    rw [← String.length_data]
    rfl
  rw [h1, List.length_replicate]

/-- C6 counterexample: at exactly 80% of the limit no warning is raised. -/
theorem tokenBudget_no_warning_at_80 :
    100 * (estimateTokensForModel c6Text (some "some-unknown-model")).tokens =
      80 * getModelLimit (some "some-unknown-model") ∧
    (estimateTokensForModel c6Text (some "some-unknown-model")).exceedsWarning = false :=
  tokenBudget_boundary c6Text c6Text_length

/-- C6 (amended): warning exactly when the estimate strictly exceeds 80% of the
claim's limit table, error exactly when it strictly exceeds 95%, and the
validation is invalid exactly in the error case. -/
theorem tokenBudget_thresholds (text : String) (model : Option String) :
    ((estimateTokensForModel text model).exceedsWarning = true ↔
      100 * estimateTokens text > 80 * claimTokenLimit model) ∧
    ((estimateTokensForModel text model).exceedsError = true ↔
      100 * estimateTokens text > 95 * claimTokenLimit model) ∧
    ((validateTokenBudget text model).valid = true ↔
      ¬(100 * estimateTokens text > 95 * claimTokenLimit model)) := by
  have hlim := getModelLimit_eq_claim model
  have hW : (estimateTokensForModel text model).exceedsWarning =
      decide (5 * estimateTokens text > 4 * getModelLimit model) := rfl
  have hE : (estimateTokensForModel text model).exceedsError =
      decide (20 * estimateTokens text > 19 * getModelLimit model) := rfl
  have hvalid : (validateTokenBudget text model).valid =
      !(estimateTokensForModel text model).exceedsError := by
    unfold validateTokenBudget
    by_cases he : (estimateTokensForModel text model).exceedsError = true
    · simp [he]
    · by_cases hw : (estimateTokensForModel text model).exceedsWarning = true
      · simp [he, hw]
      · simp [he, hw]
  refine ⟨?_, ?_, ?_⟩
  · rw [hW, hlim, decide_eq_true_eq]
    omega
  · rw [hE, hlim, decide_eq_true_eq]
    omega
  · rw [hvalid, hE, hlim]
    constructor
    · intro hb
      simp only [Bool.not_eq_true', decide_eq_false_iff_not] at hb
      omega
    · intro hp
      simp only [Bool.not_eq_true', decide_eq_false_iff_not]
      omega

/-! ### Claim C8 -/

/-- `Phase <i> ...` messages are non-empty. -/
theorem phaseErr_pos (i : Nat) (t : String) : 0 < (phaseErr i t).length := by
  unfold phaseErr
  rw [String.length_append, String.length_append]
  have h : 0 < ("Phase " : String).length := by decide
  omega

/-- `Iterative phase <i> ...` messages are non-empty. -/
theorem iterativePhaseErr_pos (i : Nat) (t : String) :
    0 < (iterativePhaseErr i t).length := by
  unfold iterativePhaseErr
  rw [String.length_append, String.length_append]
  have h : 0 < ("Iterative phase " : String).length := by decide
  omega

/-- `Test execution phase <i> ...` messages are non-empty. -/
theorem testExecPhaseErr_pos (i : Nat) (t : String) :
    0 < (testExecPhaseErr i t).length := by
  unfold testExecPhaseErr
  rw [String.length_append, String.length_append]
  have h : 0 < ("Test execution phase " : String).length := by decide
  omega

/-- Every iterative-phase validation failure carries a non-empty message. -/
theorem validateIterativePhase_err_pos (p : Yaml) (i : Nat) (err : String)
    (h : validateIterativePhase p i = some err) : 0 < err.length := by
  unfold validateIterativePhase at h
  by_cases h1 : (!p.truthyStringField "creator") = true
  · rw [if_pos h1] at h
    simp only [Option.some.injEq] at h
    subst h
    exact iterativePhaseErr_pos i _
  · rw [if_neg h1] at h
    rcases hr : yamlArr (p.getField "reviewers") with _ | reviewers <;> rw [hr] at h
    · simp only [Option.some.injEq] at h
      subst h
      exact iterativePhaseErr_pos i _
    · simp only at h
      by_cases h2 : reviewers.isEmpty = true
      · rw [if_pos h2] at h
        simp only [Option.some.injEq] at h
        subst h
        exact iterativePhaseErr_pos i _
      · rw [if_neg h2] at h
        rcases hv : yamlArr (p.getField "verifiers") with _ | verifiers <;> rw [hv] at h
        · simp only [Option.some.injEq] at h
          subst h
          exact iterativePhaseErr_pos i _
        · simp only at h
          by_cases h3 : verifiers.isEmpty = true
          · rw [if_pos h3] at h
            simp only [Option.some.injEq] at h
            subst h
            exact iterativePhaseErr_pos i _
          · rw [if_neg h3] at h
            by_cases h4 : (reviewers.length != verifiers.length) = true
            · rw [if_pos h4] at h
              simp only [Option.some.injEq] at h
              subst h
              exact iterativePhaseErr_pos i _
            · rw [if_neg h4] at h
              cases h

/-- Every test-execution-phase validation failure carries a non-empty message. -/
theorem validateTestExecutionPhase_err_pos (p : Yaml) (i : Nat) (err : String)
    (h : validateTestExecutionPhase p i = some err) : 0 < err.length := by
  unfold validateTestExecutionPhase at h
  by_cases h1 : (!p.truthyStringField "tester") = true
  · rw [if_pos h1] at h
    simp only [Option.some.injEq] at h
    subst h
    exact testExecPhaseErr_pos i _
  · rw [if_neg h1] at h
    by_cases h2 : (!p.truthyStringField "fixer") = true
    · rw [if_pos h2] at h
      simp only [Option.some.injEq] at h
      subst h
      exact testExecPhaseErr_pos i _
    · rw [if_neg h2] at h
      cases h

/-- Every single-phase validation failure carries a non-empty message. -/
theorem validatePhase_err_pos (p : Yaml) (i : Nat) (err : String)
    (h : validatePhase p i = some err) : 0 < err.length := by
  unfold validatePhase at h
  by_cases h1 : (p.falsy || !p.typeofObject) = true
  · rw [if_pos h1] at h
    simp only [Option.some.injEq] at h
    subst h
    exact phaseErr_pos i _
  · rw [if_neg h1] at h
    by_cases h2 : (!p.truthyStringField "id") = true
    · rw [if_pos h2] at h
      simp only [Option.some.injEq] at h
      subst h
      exact phaseErr_pos i _
    · rw [if_neg h2] at h
      by_cases h3 : (!p.truthyStringField "type") = true
      · rw [if_pos h3] at h
        simp only [Option.some.injEq] at h
        subst h
        exact phaseErr_pos i _
      · rw [if_neg h3] at h
        simp only at h
        by_cases h4 : ((yamlStr (p.getField "type")).getD "" == "iterative") = true
        · rw [if_pos h4] at h
          exact validateIterativePhase_err_pos p i err h
        · rw [if_neg h4] at h
          by_cases h5 : ((yamlStr (p.getField "type")).getD "" == "test-execution") = true
          · rw [if_pos h5] at h
            exact validateTestExecutionPhase_err_pos p i err h
          · rw [if_neg h5] at h
            simp only [Option.some.injEq] at h
            subst h
            exact phaseErr_pos i _

/-- Every phase-loop validation failure carries a non-empty message. -/
theorem validatePhases_err_pos (ps : List Yaml) (i : Nat) (err : String)
    (h : validatePhases ps i = some err) : 0 < err.length := by
  induction ps generalizing i with
  | nil => simp [validatePhases] at h
  | cons p rest ih =>
    unfold validatePhases at h
    rcases hp : validatePhase p i with _ | e <;> rw [hp] at h
    · exact ih (i + 1) h
    · simp only [Option.some.injEq] at h
      subst h
      exact validatePhase_err_pos p i e hp

/-- Every definition-validation failure carries a non-empty message. -/
theorem validateDefinition_err_pos (parsed : Yaml) (err : String)
    (h : validateDefinition parsed = some err) : 0 < err.length := by
  unfold validateDefinition at h
  by_cases h1 : (!parsed.truthyStringField "name") = true
  · rw [if_pos h1] at h
    simp only [Option.some.injEq] at h
    subst h
    decide
  · rw [if_neg h1] at h
    by_cases h2 : (!parsed.truthyNumberField "version") = true
    · rw [if_pos h2] at h
      simp only [Option.some.injEq] at h
      subst h
      decide
    · rw [if_neg h2] at h
      rcases hp : yamlArr (parsed.getField "phases") with _ | phases <;> rw [hp] at h
      · simp only [Option.some.injEq] at h
        subst h
        decide
      · simp only at h
        by_cases h3 : phases.isEmpty = true
        · rw [if_pos h3] at h
          simp only [Option.some.injEq] at h
          subst h
          decide
        · rw [if_neg h3] at h
          exact validatePhases_err_pos phases 0 err h

/-- The shared post-parse path yields either a definition or a non-empty error. -/
theorem loadParsed_shape (parsed : Yaml) :
    ((loadParsed parsed).success = true ∧ ((loadParsed parsed).definition).isSome = true) ∨
    ((loadParsed parsed).success = false ∧
      ∃ e, (loadParsed parsed).error = some e ∧ 0 < e.length) := by
  unfold loadParsed
  by_cases h1 : (parsed.falsy || !parsed.typeofObject) = true
  · rw [if_pos h1]
    right
    exact ⟨rfl, "Invalid YAML: Expected an object", rfl, by decide⟩
  · rw [if_neg h1]
    rcases hv : validateDefinition parsed with _ | err
    · left
      exact ⟨rfl, rfl⟩
    · right
      exact ⟨rfl, err, rfl, validateDefinition_err_pos parsed err hv⟩

/-- C8: `load_from_string` and `load_from_file` always return a result — a
successful one carrying a definition, or a failure with `success = false` and a
non-empty error message — for every parse/read outcome, including thrown
parser and filesystem errors (caught by the `try` blocks). -/
theorem load_total_result_shape :
    (∀ pr : Except String Yaml,
      ((loadFromString pr).success = true ∧
        ((loadFromString pr).definition).isSome = true) ∨
      ((loadFromString pr).success = false ∧
        ∃ e, (loadFromString pr).error = some e ∧ 0 < e.length)) ∧
    (∀ (path : String) (rr : Except String (Except String Yaml)),
      ((loadFromFile path rr).success = true ∧
        ((loadFromFile path rr).definition).isSome = true) ∨
      ((loadFromFile path rr).success = false ∧
        ∃ e, (loadFromFile path rr).error = some e ∧ 0 < e.length)) := by
  constructor
  · intro pr
    match pr with
    | .error e =>
      right
      refine ⟨rfl, "Failed to parse YAML: " ++ e, rfl, ?_⟩
      rw [String.length_append]
      have h : 0 < ("Failed to parse YAML: " : String).length := by decide
      omega
    | .ok parsed => exact loadParsed_shape parsed
  · intro path rr
    match rr with
    | .error e =>
      right
      refine ⟨rfl, "Failed to load workflow: " ++ e, rfl, ?_⟩
      rw [String.length_append]
      have h : 0 < ("Failed to load workflow: " : String).length := by decide
      omega
    | .ok (.error e) =>
      right
      refine ⟨rfl, "Failed to load workflow: " ++ e, rfl, ?_⟩
      rw [String.length_append]
      have h : 0 < ("Failed to load workflow: " : String).length := by decide
      omega
    | .ok (.ok parsed) =>
      rcases loadParsed_shape parsed with ⟨h1, h2⟩ | ⟨h1, e, h2, h3⟩
      · left
        exact ⟨h1, h2⟩
      · right
        exact ⟨h1, e, h2, h3⟩

/-! ### Claim C9 -/

/-- Every model limit is positive. -/
theorem getModelLimit_pos (m : Option String) : 0 < getModelLimit m := by
  rw [getModelLimit_eq_claim]
  cases m with
  | none => decide
  | some s =>
    simp only [claimTokenLimit]
    split
    · decide
    · split
      · decide
      · decide

/-- C9: for substrings (`B = p ++ A ++ q`), the token estimate and — for every
model — the reported percentage of the limit are monotone. -/
theorem estimateTokens_monotone (A B : String) (h : ∃ p q, B = p ++ A ++ q) :
    estimateTokens A ≤ estimateTokens B ∧
    ∀ m : Option String,
      (estimateTokensForModel A m).percentage ≤
        (estimateTokensForModel B m).percentage := by
  obtain ⟨p, q, rfl⟩ := h
  have hlen : A.length ≤ (p ++ A ++ q).length := by
    rw [String.length_append, String.length_append]
    omega
  have htok : estimateTokens A ≤ estimateTokens (p ++ A ++ q) := by
    unfold estimateTokens
    exact Nat.div_le_div_right (by omega)
  refine ⟨htok, ?_⟩
  intro m
  have hA : (estimateTokensForModel A m).percentage =
      (estimateTokens A : ℚ) / (getModelLimit m : ℚ) := rfl
  have hB : (estimateTokensForModel (p ++ A ++ q) m).percentage =
      (estimateTokens (p ++ A ++ q) : ℚ) / (getModelLimit m : ℚ) := rfl
  rw [hA, hB]
  have hlim : (0 : ℚ) < (getModelLimit m : ℚ) := by
    exact_mod_cast getModelLimit_pos m
  exact (div_le_div_iff_of_pos_right hlim).mpr (by exact_mod_cast htok)

/-- Witness for C9 at `A = "bc"`, `B = "abcd"`. -/
theorem estimateTokens_monotone_witness :
    estimateTokens "bc" ≤ estimateTokens "abcd" ∧
    ∀ m : Option String,
      (estimateTokensForModel "bc" m).percentage ≤
        (estimateTokensForModel "abcd" m).percentage :=
  estimateTokens_monotone "bc" "abcd" ⟨"a", "d", by decide⟩

/-! ### Claim C7 -/

/-- C7: on a creator step with `state.iteration = N > 1`, the context files
passed to the creator include every resolved phase-context template that exists
on disk and the feedback file of every unaddressed `FeedbackRecord` from
iteration `N - 1`. -/
theorem creatorContextFiles_includes (phase : IterativePhaseDef)
    (state : WorkflowState) (context : InterpolationContext)
    (existsFile : String → Bool) (h : 1 < state.iteration) :
    (∀ fb ∈ state.feedback_history,
      fb.iteration = state.iteration - 1 → fb.addressed = false →
        fb.feedback_file ∈ creatorContextFiles phase state context existsFile) ∧
    (∀ t ∈ phase.context.getD [],
      existsFile (interpolate t context) = true →
        interpolate t context ∈ creatorContextFiles phase state context existsFile) := by
  unfold creatorContextFiles
  rw [if_pos (by exact_mod_cast h)]
  constructor
  · intro fb hmem hiter haddr
    apply List.mem_append_right
    apply List.mem_map_of_mem
    apply List.mem_filter.mpr
    refine ⟨hmem, ?_⟩
    simp [hiter, haddr]
  · intro t hmem hex
    apply List.mem_append_left
    unfold resolveContextFiles
    rcases hc : phase.context with _ | ps
    · rw [hc] at hmem
      simp at hmem
    · rw [hc] at hmem
      simp only [Option.getD_some] at hmem
      apply List.mem_filter.mpr
      exact ⟨List.mem_map_of_mem _ hmem, hex⟩

/-- C7 witness data: iteration 2 with one unaddressed iteration-1 feedback. -/
def c7Phase : IterativePhaseDef :=
  { id := "planning", creator := "plan-creator", reviewers := ["r1"],
    verifiers := ["v1"], outputs := none, context := some ["ctx.md"],
    min_iterations := 1, max_iterations := none, checkpoint_message := none }

/-- C7 witness state. -/
def c7State : WorkflowState :=
  { createWorkflowState "wf" "planning" "t0" with
      iteration := 2, status := .working,
      feedback_history := [⟨1, "r1", "fb1.md", false, "t0"⟩] }

/-- C7 witness context. -/
def c7Ctx : InterpolationContext :=
  { «variables» := [], iteration := 2, phase := "planning" }

/-- Witness for C7: both inclusions at a concrete workflow. -/
theorem creatorContextFiles_includes_witness :
    "fb1.md" ∈ creatorContextFiles c7Phase c7State c7Ctx (fun _ => true) ∧
    interpolate "ctx.md" c7Ctx ∈ creatorContextFiles c7Phase c7State c7Ctx (fun _ => true) :=
  ⟨(creatorContextFiles_includes c7Phase c7State c7Ctx (fun _ => true) (by decide)).1
      ⟨1, "r1", "fb1.md", false, "t0"⟩ (by decide) (by decide) (by decide),
   (creatorContextFiles_includes c7Phase c7State c7Ctx (fun _ => true) (by decide)).2
      "ctx.md" (by decide) (by decide)⟩

/-! ### Claim C4 -/

/-- A minimal valid workflow document with no user `variables`. -/
def c4Doc : Yaml :=
  .obj [("name", .str "wf"), ("version", .num 1),
    ("phases", .arr [.obj [("id", .str "planning"), ("type", .str "iterative"),
      ("creator", .str "plan-creator"),
      ("reviewers", .arr [.str "r1"]), ("verifiers", .arr [.str "v1"])]])]

/-- The normalized form of `c4Doc`; its `variables` are exactly the defaults,
which include `iteration: 1`. -/
def c4Defn : WorkflowDefinitionN := normalizeDefinition c4Doc

/-- A state of that workflow at live iteration 2. -/
def c4State : WorkflowState :=
  { createWorkflowState "wf" "planning" "t0" with iteration := 2, status := .working }

/-- C4: in the executor-built context for a normalized definition, the template
`{{ iteration }}` resolves to the *default variable* `iteration = 1` — the
variables map is consulted before the special names, and
`DEFAULT_WORKFLOW_VARIABLES` contains `iteration: 1` — so the live iteration 2
is never reported; `{{ phase }}` (no shadowing default) does resolve live. -/
theorem interpolate_iteration_shadowed :
    c4State.iteration = 2 ∧
    interpolate "{{ iteration }}" (buildInterpolationContext c4Defn c4State) = "1" ∧
    interpolate "{{ phase }}" (buildInterpolationContext c4Defn c4State) = "planning" := by
  refine ⟨by decide, ?_, ?_⟩ <;> decide

/-! ### Claim C2 -/

/-- The fan-in pass changes neither `phase` nor `iteration` nor `status`. -/
theorem recordVerificationArtifactsAux_fields (dir : String) (iter : Int)
    (now : String) (l : List (String × Bool)) :
    ∀ s : WorkflowState,
      (recordVerificationArtifactsAux dir iter now s l).phase = s.phase ∧
      (recordVerificationArtifactsAux dir iter now s l).iteration = s.iteration ∧
      (recordVerificationArtifactsAux dir iter now s l).status = s.status := by
  induction l with
  | nil => intro s; exact ⟨rfl, rfl, rfl⟩
  | cons hd tl ih =>
    intro s
    unfold recordVerificationArtifactsAux
    have h3 : ∀ t : WorkflowState,
        (if hd.2 = true then
          addArtifactPure t .verification
            (pathJoin dir (hd.1 ++ "-v" ++ toString iter ++ ".md")) hd.1 now
        else t).phase = t.phase ∧
        (if hd.2 = true then
          addArtifactPure t .verification
            (pathJoin dir (hd.1 ++ "-v" ++ toString iter ++ ".md")) hd.1 now
        else t).iteration = t.iteration ∧
        (if hd.2 = true then
          addArtifactPure t .verification
            (pathJoin dir (hd.1 ++ "-v" ++ toString iter ++ ".md")) hd.1 now
        else t).status = t.status := by
      intro t
      by_cases hb : hd.2 = true
      · rw [if_pos hb]
        exact ⟨rfl, rfl, rfl⟩
      · rw [if_neg hb]
        exact ⟨rfl, rfl, rfl⟩
    have h2 := ih (if hd.2 = true then
        addArtifactPure s .verification
          (pathJoin dir (hd.1 ++ "-v" ++ toString iter ++ ".md")) hd.1 now
      else s)
    exact ⟨h2.1.trans (h3 s).1, h2.2.1.trans (h3 s).2.1, h2.2.2.trans (h3 s).2.2⟩

/-- Recording the verification artifacts changes neither `phase` nor
`iteration` nor `status`. -/
theorem recordVerificationArtifacts_fields (phase : IterativePhaseDef)
    (s : WorkflowState) (results : List Bool) (dir now : String) :
    (recordVerificationArtifacts phase s results dir now).phase = s.phase ∧
    (recordVerificationArtifacts phase s results dir now).iteration = s.iteration ∧
    (recordVerificationArtifacts phase s results dir now).status = s.status :=
  recordVerificationArtifactsAux_fields dir s.iteration now
    (phase.verifiers.zip results) s

/-- A non-empty candidate list always yields a latest artifact. -/
theorem pickLatest_isSome (timeOf : String → Int) (l : List ArtifactRecord)
    (h : l ≠ []) : (pickLatest timeOf l).isSome = true := by
  cases l with
  | nil => exact absurd rfl h
  | cons a rest =>
    unfold pickLatest
    cases hp : pickLatest timeOf rest with
    | none => rfl
    | some b =>
      show (if timeOf b.created_at > timeOf a.created_at then some b
        else some a).isSome = true
      split <;> rfl

/-- C2 (amended): in the verification step, the phase advances (or the workflow
completes on the last phase) exactly when (every verifier invocation succeeded
and `iteration ≥ min_iterations`) or (`max_iterations` is defined, non-zero —
`0` is falsy in the guard — and `iteration ≥ max_iterations`); otherwise the
workflow pauses at a checkpoint with `phase` and `iteration` unchanged. -/
theorem runVerificationStep_phase_gate
    (defn : WorkflowDefinitionN) (phase : IterativePhaseDef) (s : WorkflowState)
    (context : InterpolationContext) (results : List Bool)
    (timeOf : String → Int) (now : String)
    (hiter : 1 ≤ s.iteration)
    (hres : results.length = phase.verifiers.length)
    (hart : s.artifacts.filter
      (fun a => a.iteration == s.iteration && a.type != .review) ≠ []) :
    ∃ s', runVerificationStep defn phase s context results timeOf now = some s' ∧
      ((((∀ r ∈ results, r = true) ∧ phase.min_iterations ≤ s.iteration) ∨
        (∃ m, phase.max_iterations = some m ∧ m ≠ 0 ∧ m ≤ s.iteration)) ↔
        ((∃ np, getNextPhase defn phase.id = some np ∧ s'.phase = np.id ∧
            s'.iteration = 1 ∧ s'.status = .working) ∨
          (getNextPhase defn phase.id = none ∧ s'.phase = s.phase ∧
            s'.iteration = s.iteration ∧ s'.status = .complete))) ∧
      (¬(((∀ r ∈ results, r = true) ∧ phase.min_iterations ≤ s.iteration) ∨
          (∃ m, phase.max_iterations = some m ∧ m ≠ 0 ∧ m ≤ s.iteration)) →
        s'.phase = s.phase ∧ s'.iteration = s.iteration ∧ s'.status = .checkpoint) := by
  obtain ⟨a0, ha0⟩ : ∃ a, pickLatest timeOf
      (s.artifacts.filter
        (fun a => a.iteration == s.iteration && a.type != .review)) = some a :=
    Option.isSome_iff_exists.mp (pickLatest_isSome timeOf _ hart)
  obtain ⟨hph, hit, hstat⟩ := recordVerificationArtifacts_fields phase s results
    (outputsField (interpolateOutputs phase.outputs context) "verifications"
      (pathJoin (jsOrString defn.output_dir ".cursor/agents/workflow") "verifications"))
    now
  have hallIff : ((results.count true == phase.verifiers.length) = true) ↔
      (∀ r ∈ results, r = true) := by
    rw [beq_iff_eq, ← hres, List.count_eq_length]
    exact ⟨fun h r hr => (h r hr).symm, fun h r hr => (h r hr).symm⟩
  have hminIff : (decide (s.iteration ≥
      (if phase.min_iterations == 0 then 1 else phase.min_iterations)) = true) ↔
      phase.min_iterations ≤ s.iteration := by
    by_cases hm0 : phase.min_iterations = 0
    · simp [hm0, hiter]
      omega
    · have hb : (phase.min_iterations == 0) = false := by simp [hm0]
      simp [hb]
  have hmaxIff : ((match phase.max_iterations with
      | some m => if m == 0 then false else decide (s.iteration ≥ m)
      | none => false) = true) ↔
      (∃ m, phase.max_iterations = some m ∧ m ≠ 0 ∧ m ≤ s.iteration) := by
    rcases phase.max_iterations with _ | m
    · simp
    · by_cases hm0 : m = 0
      · simp [hm0]
      · have hb : (m == 0) = false := by simp [hm0]
        simp [hb, hm0]
  simp only [runVerificationStep, ha0]
  by_cases hmax : ((match phase.max_iterations with
      | some m => if m == 0 then false else decide (s.iteration ≥ m)
      | none => false) = true)
  · rw [if_pos hmax]
    have hgate : (((∀ r ∈ results, r = true) ∧ phase.min_iterations ≤ s.iteration) ∨
        (∃ m, phase.max_iterations = some m ∧ m ≠ 0 ∧ m ≤ s.iteration)) :=
      Or.inr (hmaxIff.mp hmax)
    rcases hnp : getNextPhase defn phase.id with _ | np
    · refine ⟨_, rfl, ?_, ?_⟩
      · exact ⟨fun _ => Or.inr ⟨rfl, hph, hit, rfl⟩, fun _ => hgate⟩
      · intro hn
        exact absurd hgate hn
    · refine ⟨_, rfl, ?_, ?_⟩
      · exact ⟨fun _ => Or.inl ⟨np, rfl, rfl, rfl, rfl⟩, fun _ => hgate⟩
      · intro hn
        exact absurd hgate hn
  · rw [if_neg hmax]
    by_cases hall : ((results.count true == phase.verifiers.length &&
        decide (s.iteration ≥
          (if phase.min_iterations == 0 then 1 else phase.min_iterations))) = true)
    · rw [if_pos hall]
      rw [Bool.and_eq_true] at hall
      have hgate : (((∀ r ∈ results, r = true) ∧ phase.min_iterations ≤ s.iteration) ∨
          (∃ m, phase.max_iterations = some m ∧ m ≠ 0 ∧ m ≤ s.iteration)) :=
        Or.inl ⟨hallIff.mp hall.1, hminIff.mp hall.2⟩
      rcases hnp : getNextPhase defn phase.id with _ | np
      · refine ⟨_, rfl, ?_, ?_⟩
        · exact ⟨fun _ => Or.inr ⟨rfl, hph, hit, rfl⟩, fun _ => hgate⟩
        · intro hn
          exact absurd hgate hn
      · refine ⟨_, rfl, ?_, ?_⟩
        · exact ⟨fun _ => Or.inl ⟨np, rfl, rfl, rfl, rfl⟩, fun _ => hgate⟩
        · intro hn
          exact absurd hgate hn
    · rw [if_neg hall]
      have hngate : ¬(((∀ r ∈ results, r = true) ∧
          phase.min_iterations ≤ s.iteration) ∨
          (∃ m, phase.max_iterations = some m ∧ m ≠ 0 ∧ m ≤ s.iteration)) := by
        rintro (⟨h1, h2⟩ | h3)
        · apply hall
          rw [Bool.and_eq_true]
          exact ⟨hallIff.mpr h1, hminIff.mpr h2⟩
        · exact hmax (hmaxIff.mpr h3)
      refine ⟨_, rfl, ?_, ?_⟩
      · constructor
        · intro hg
          exact absurd hg hngate
        · rintro (⟨np, hnp, hph', hit', hstat'⟩ | ⟨hnp, hph', hit', hstat'⟩) <;>
            cases hstat'
      · intro _
        exact ⟨hph, hit, rfl⟩

/-- C2 witness data: first phase of a two-phase definition. -/
def c2PhaseA : IterativePhaseDef :=
  { id := "planning", creator := "plan-creator", reviewers := ["r1"],
    verifiers := ["v1"], outputs := none, context := none,
    min_iterations := 1, max_iterations := none, checkpoint_message := none }

/-- C2 witness data: second phase. -/
def c2PhaseB : IterativePhaseDef :=
  { id := "implementation", creator := "implementer", reviewers := ["r2"],
    verifiers := ["v2"], outputs := none, context := none,
    min_iterations := 1, max_iterations := none, checkpoint_message := none }

/-- C2 witness definition. -/
def c2Defn : WorkflowDefinitionN :=
  { name := "wf", version := 1, description := none, «variables» := [],
    phases := [.iterative c2PhaseA, .iterative c2PhaseB],
    output_dir := ".cursor/agents/workflow", input_file := none }

/-- C2 witness state: verifying, with the iteration's artifact recorded. -/
def c2State : WorkflowState :=
  { createWorkflowState "wf" "planning" "t0" with
      status := .verifying,
      artifacts := [⟨1, .plan, "plan.md", "plan-creator", "t0"⟩] }

/-- C2 witness context. -/
def c2Ctx : InterpolationContext :=
  { «variables» := [], iteration := 1, phase := "planning" }

/-- Witness for the amended C2: the verification step runs to a result on a
concrete workflow. -/
theorem runVerificationStep_phase_gate_witness :
    (runVerificationStep c2Defn c2PhaseA c2State c2Ctx [true]
      (fun _ => 0) "t1").isSome = true := by
  obtain ⟨s', hs', -, -⟩ := runVerificationStep_phase_gate c2Defn c2PhaseA c2State
    c2Ctx [true] (fun _ => 0) "t1" (by decide) (by decide) (by decide)
  rw [hs']
  rfl

/-- C2 counterexample data: a phase whose `max_iterations` is the number `0`. -/
def c2PhaseZ : IterativePhaseDef :=
  { id := "planning", creator := "plan-creator", reviewers := ["r1"],
    verifiers := ["v1"], outputs := none, context := none,
    min_iterations := 1, max_iterations := some 0, checkpoint_message := none }

/-- C2 counterexample definition. -/
def c2DefnZ : WorkflowDefinitionN :=
  { name := "wf", version := 1, description := none, «variables» := [],
    phases := [.iterative c2PhaseZ, .iterative c2PhaseB],
    output_dir := ".cursor/agents/workflow", input_file := none }

/-- C2 counterexample: with `max_iterations = 0` (defined, and
`iteration ≥ max_iterations` holds) and a failing verifier, the claim as stated
demands a phase advance, but the code treats the falsy `0` as "no limit" and
pauses at a checkpoint with the phase unchanged. -/
theorem runVerificationStep_max_zero_counterexample :
    (∃ m : Int, c2PhaseZ.max_iterations = some m ∧ m ≤ c2State.iteration) ∧
    ((runVerificationStep c2DefnZ c2PhaseZ c2State c2Ctx [false]
        (fun _ => 0) "t1").map
      (fun s' => (s'.phase, s'.iteration, s'.status))) =
      some ("planning", 1, .checkpoint) := by
  constructor
  · exact ⟨0, rfl, by decide⟩
  · decide
